import Mathlib

/-
Shallow embedding of raplay (src/main.rs), a terminal audio player.

Conventions of the embedding:
- Machine integers (the u16 track counters, the u64 second counts) are
  embedded as Nat with an explicit reduction modulo 2 ^ 16 respectively
  2 ^ 64 at exactly the operations where the Rust code can overflow.  This
  matches the wrapping semantics of release builds; debug builds abort at
  the same inputs, so either way the claimed behavior does not happen there.
- The rodio Sink is embedded by its observable state: the paused flag, the
  queue of appended streams (identified by their source path), and the list
  of seek commands issued.  The playback position (Sink::get_pos) and the
  decoded total duration (Source::total_duration) are read from the
  environment, so they enter the model as parameters of the tick step.
- Fallible environment calls (directory scan, file open and decode) are
  modeled by passing their successful results as input; the run loop treats
  decode failures as fatal and the scan error is discarded by the caller,
  so no claim depends on the error paths.
- In run_app, the branch querying the shutdown channel inside the play arm
  can only succeed after the quit arm has already returned from run_app, so
  it is dead code and is not part of the model.
-/

/-- 2 ^ 64, the modulus of Rust u64 arithmetic. -/
def u64Mod : Nat := 18446744073709551616

/-- 2 ^ 16, the modulus of Rust u16 arithmetic. -/
def u16Mod : Nat := 65536

/-- enum PlayState from main.rs. -/
inductive PlayState
  | Play : Bool → PlayState
  | Pause : Bool → PlayState
  | Restart
deriving DecidableEq

/-- enum PlayMode from main.rs; declared there and never used by the run loop. -/
inductive PlayMode
  | ListOnce
  | LoopAll
  | LoopOne
  | LoopRnd
deriving DecidableEq

/-- Press and release phases of a crossterm key event (KeyEventKind). -/
inductive KeyKind
  | Press
  | Repeat
  | Release
deriving DecidableEq

/-- Observable state of the rodio Sink used by the player. -/
structure Sink where
  paused : Bool
  queue : List String
  seeks : List Nat
deriving DecidableEq

def Sink.new : Sink := ⟨false, [], []⟩

def Sink.play (s : Sink) : Sink := {s with paused := false}

def Sink.pause (s : Sink) : Sink := {s with paused := true}

def Sink.append (s : Sink) (src : String) : Sink := {s with queue := s.queue ++ [src]}

def Sink.is_paused (s : Sink) : Bool := s.paused

def Sink.empty (s : Sink) : Bool := s.queue.isEmpty

def Sink.try_seek (s : Sink) (msec : Nat) : Sink := {s with seeks := s.seeks ++ [msec]}

/-- struct AudioFileList from main.rs. -/
structure AudioFileList where
  dirs : List String
  files : List String
deriving DecidableEq

def AudioFileList.new : AudioFileList := ⟨[], []⟩

def AudioFileList.insert_file (l : AudioFileList) (file_name : String) : AudioFileList :=
  {l with files := l.files ++ [file_name]}

def AudioFileList.reset (l : AudioFileList) : AudioFileList :=
  {l with files := []}

/-- One directory entry as observed through read_dir: its file name and
whether its file type is a regular file. -/
structure DirEntry where
  name : String
  is_file : Bool
deriving DecidableEq

/-- str::ends_with, as a suffix test on the character data.  (The endsWith
of the Lean core library is extensionally the same test but is defined by
well-founded recursion on byte positions, which blocks kernel evaluation.) -/
def strEndsWith (s post : String) : Bool :=
  post.data.isSuffixOf s.data

/-- The entry filter of App::load_file_path, with the precedence the Rust
expression actually has: `i.file_type()?.is_file() && n.ends_with("mp3")
|| n.ends_with("flac") || n.ends_with("ogg") || n.ends_with("wav")`.
Because && binds tighter than ||, only the mp3 suffix is guarded by the
regular-file test. -/
def entryIncluded (e : DirEntry) : Bool :=
  (e.is_file && strEndsWith e.name "mp3") || strEndsWith e.name "flac"
    || strEndsWith e.name "ogg" || strEndsWith e.name "wav"

/-- The names an App::load_file_path scan over the given entries collects,
in enumeration order. -/
def scanFiles (entries : List DirEntry) : List String :=
  (entries.filter entryIncluded).map DirEntry.name

/-- struct App from main.rs.  The PathBuf field curr_folderpath is kept as a
plain string; it is only ever passed back to the scan, whose result the load
event carries, so its value never matters to the model. -/
structure App where
  audio_path : String
  audio_sink : Sink
  song_name : String
  song_curr_time : String
  song_duration : String
  song_progress : String
  play_state : PlayState
  audio_file_list : AudioFileList
  curr_folderpath : String
  curr_playlist : List String
  curr_songid : Nat
  curr_songnum : Nat
deriving DecidableEq

def App.new : App :=
  { audio_path := ""
    audio_sink := Sink.new
    song_name := ""
    song_curr_time := ""
    song_duration := ""
    song_progress := "-------------------------"
    play_state := PlayState.Pause true
    audio_file_list := AudioFileList.new
    curr_folderpath := ""
    curr_playlist := [".."]
    curr_songid := 0
    curr_songnum := 0 }

/-- Zero padding to two digits, as the {:02} format specifier does. -/
def pad2 (n : Nat) : String :=
  if n < 10 then "0" ++ toString n else toString n

/-- The H:MM:SS rendering format!("{}:{:02}:{:02}", dur/3600, dur%3600/60, dur%60). -/
def fmtTime (dur : Nat) : String :=
  toString (dur / 3600) ++ ":" ++ pad2 (dur % 3600 / 60) ++ ":" ++ pad2 (dur % 60)

def App.show_song_info (a : App) : App :=
  {a with song_name := a.audio_path}

/-- App::show_song_curr_time; pos is the observed Sink::get_pos().as_secs(). -/
def App.show_song_curr_time (a : App) (pos : Nat) : App × Nat :=
  ({a with song_curr_time := fmtTime pos}, pos)

/-- The second count App::show_song_duration computes: the decoded total
duration when the path is nonempty (36000 when the decoder reports none),
and 1 for an empty path. -/
def durVal (path : String) (durOpt : Option Nat) : Nat :=
  if path.isEmpty = false then
    match durOpt with
    | some d => d
    | none => 36000
  else 1

/-- The string App::show_song_duration stores in song_duration. -/
def durString (path : String) (durOpt : Option Nat) : String :=
  if path.isEmpty = false then
    if durVal path durOpt < 36000 then fmtTime (durVal path durOpt) else "?[-_-#]"
  else ""

/-- App::show_song_duration; durOpt is the observed Source::total_duration()
of the decoded stream at audio_path (the Ok path of the decode). -/
def App.show_song_duration (a : App) (durOpt : Option Nat) : App × Nat :=
  ({a with song_duration := durString a.audio_path durOpt}, durVal a.audio_path durOpt)

/-- The string App::show_song_progress stores in song_progress.  The
fill count is `curr * length / dur` in u64 arithmetic, and the dash count
is the u64 value of `length - progress`, which wraps when progress
exceeds 25.  When the sink is not empty the bar is rebuilt, otherwise the
previous string is kept.  (For dur = 0 the Rust division aborts; the model
value there is never relied on.) -/
def progressString (curr dur : Nat) (sink_empty : Bool) (prev : String) : String :=
  if dur = 36000 then "============/============"
  else
    let progress := curr * 25 % u64Mod / dur
    if sink_empty = false then
      String.mk (List.replicate progress '=' ++ '>' ::
        List.replicate ((25 + u64Mod - progress) % u64Mod) '-')
    else prev

/-- App::show_song_progress. -/
def App.show_song_progress (a : App) (curr dur : Nat) : App :=
  {a with song_progress := progressString curr dur a.audio_sink.empty a.song_progress}

/-- App::time_to_seek.  Never called by the run loop. -/
def App.time_to_seek (a : App) (msec : Nat) : App :=
  {a with audio_sink := a.audio_sink.try_seek msec}

/-- App::load_file_path over the observed directory entries: reset the file
list, then insert the name of every entry passing the filter, in order. -/
def App.load_file_path (a : App) (entries : List DirEntry) : App :=
  let fl := entries.foldl (fun l e => if entryIncluded e then l.insert_file e.name else l)
    a.audio_file_list.reset
  {a with audio_file_list := fl}

/-- Models `(c - 1) as usize` applied to a u16 value c: the u16 subtraction
wraps at c = 0 before the zero extension to usize. -/
def prevIdx (c : Nat) : Nat := (c + 65535) % u16Mod

/-- The track advance of run_app: `curr_songid += 1` in u16 arithmetic
followed by the reset to 1 when the new value exceeds curr_songnum. -/
def advanceCursor (n c : Nat) : Nat :=
  let c2 := (c + 1) % u16Mod
  if c2 > n then 1 else c2

/-- The message shown when the scan found nothing; the third character from
the end of the first word is U+0027. -/
def noAudioMsg : String :=
  "there" ++ String.mk [Char.ofNat 39] ++ "s no audio files."

/-- The KeyCode::Char p arm of run_app: the toggle-play input. -/
def togglePlay (kind : KeyKind) (a : App) : App :=
  if a.curr_songid ≠ 0 then
    match a.play_state, kind with
    | PlayState.Pause false, KeyKind.Press | PlayState.Play true, KeyKind.Press =>
        {a with audio_sink := a.audio_sink.play, play_state := PlayState.Play false}
    | PlayState.Play false, KeyKind.Press | PlayState.Pause true, KeyKind.Press =>
        {a with audio_sink := a.audio_sink.pause, play_state := PlayState.Pause false}
    | _, _ => a
  else a

/-- The KeyCode::Char l arm of run_app: the load-playlist input, over the
observed entries of the configured folder.  The scan error of
load_file_path is discarded there (`let _ = ...`), and the track count is
truncated to u16 by `files.len() as u16`. -/
def loadPlaylist (entries : List DirEntry) (a : App) : App :=
  let a1 := a.load_file_path entries
  let a2 := {a1 with curr_songnum := a1.audio_file_list.files.length % u16Mod}
  if a2.curr_songnum ≠ 0 then
    let a3 := {a2 with curr_songid := 1, curr_playlist := a2.audio_file_list.files}
    {a3 with audio_path := a3.curr_playlist.getD (prevIdx a3.curr_songid) ""}
  else
    {a2 with curr_songid := 0, song_name := noAudioMsg}

/-- The display refresh phase of a tick: the chained calls
show_song_curr_time, show_song_duration, show_song_progress, with the
position value of the first and the second count of the second passed on to
the third exactly as in run_app. -/
def tickShows (curr : Nat) (durOpt : Option Nat) (a : App) : App :=
  ((a.show_song_curr_time curr).1.show_song_duration durOpt).1.show_song_progress
    (a.show_song_curr_time curr).2
    ((a.show_song_curr_time curr).1.show_song_duration durOpt).2

/-- The end-of-stream phase of a tick: when the sink reports empty and a
track is selected, prime a paused track (state Pause true), advance to the
next track (state Play false), or do nothing, then refresh the song name. -/
def tickEnd (a2 : App) : App :=
  if a2.audio_sink.empty = true ∧ a2.curr_songid ≠ 0 then
    (match a2.play_state with
      | PlayState.Pause true =>
          {a2 with audio_sink := (a2.audio_sink.append a2.audio_path).pause,
                   play_state := PlayState.Pause false}
      | PlayState.Play false =>
          {{a2 with curr_songid := advanceCursor a2.curr_songnum a2.curr_songid,
                    audio_path := a2.curr_playlist.getD
                      (prevIdx (advanceCursor a2.curr_songnum a2.curr_songid)) ""} with
            audio_sink := a2.audio_sink.append (a2.curr_playlist.getD
              (prevIdx (advanceCursor a2.curr_songnum a2.curr_songid)) "")}
      | _ => a2).show_song_info
  else a2

/-- The else arm of the poll: one tick of the run loop, with the observed
playback position (seconds) and the observed decoded total duration.  When
the sink is paused the loop only sleeps. -/
def tick (curr : Nat) (durOpt : Option Nat) (a : App) : App :=
  if a.audio_sink.is_paused = false then tickEnd (tickShows curr durOpt a)
  else a

/-- One appended stream finishing: the audio backend consumes the head of
the queue, after which Sink::empty can report true again.  This is the
environment behavior the end-of-track branch of run_app waits for. -/
def finishTrack (a : App) : App :=
  {a with audio_sink := {a.audio_sink with queue := a.audio_sink.queue.drop 1}}

/-- The inputs the run loop can consume, with the environment observations
each one carries. -/
inductive Ev
  | key_l : List DirEntry → Ev
  | key_p : KeyKind → Ev
  | tickEv : Nat → Option Nat → Ev
  | trackEnd : Ev

def step : Ev → App → App
  | Ev.key_l entries, a => loadPlaylist entries a
  | Ev.key_p kind, a => togglePlay kind a
  | Ev.tickEv curr durOpt, a => tick curr durOpt a
  | Ev.trackEnd, a => finishTrack a

/-- The states the run loop can reach from the initial App. -/
inductive Reach : App → Prop
  | init : Reach App.new
  | next : ∀ (e : Ev) (a : App), Reach a → Reach (step e a)

/- General helper lemmas about the embedded operations. -/

def exApp2 : App :=
  { App.new with
    curr_songid := 1
    curr_songnum := 1
    curr_playlist := ["x.mp3"]
    audio_path := "x.mp3" }

def exApp6 : App := {App.new with audio_path := "x.mp3"}

def exApp7 : App := loadPlaylist [⟨"a.mp3", true⟩] App.new

def exApp5 : App :=
  { App.new with audio_sink := { Sink.new with queue := ["x.mp3"] } }

def exApp3 : App :=
  { App.new with
    curr_songid := 2
    curr_songnum := 2
    curr_playlist := ["a.mp3", "b.mp3"]
    audio_path := "b.mp3"
    play_state := PlayState.Play false }

def c8app : App :=
  { App.new with
    play_state := PlayState.Restart
    curr_songid := 1
    curr_songnum := 1
    curr_playlist := ["x.mp3"]
    audio_path := "x.mp3" }

def c9bad : App :=
  step (Ev.key_l [])
    (step (Ev.tickEv 0 (some 100)) (step (Ev.key_l [⟨"a.mp3", true⟩]) App.new))

def trk : String := "t.mp3"

def pl65535 : List String := List.replicate 65535 trk

def entsRep : List DirEntry := List.replicate 65535 (DirEntry.mk trk true)

def loadedSt : App :=
  { audio_path := trk
    audio_sink := Sink.new
    song_name := ""
    song_curr_time := ""
    song_duration := ""
    song_progress := "-------------------------"
    play_state := PlayState.Pause true
    audio_file_list := ⟨[], pl65535⟩
    curr_folderpath := ""
    curr_playlist := pl65535
    curr_songid := 1
    curr_songnum := 65535 }

def primedSt : App :=
  { audio_path := trk
    audio_sink := ⟨true, [trk], []⟩
    song_name := trk
    song_curr_time := fmtTime 0
    song_duration := "?[-_-#]"
    song_progress := "============/============"
    play_state := PlayState.Pause false
    audio_file_list := ⟨[], pl65535⟩
    curr_folderpath := ""
    curr_playlist := pl65535
    curr_songid := 1
    curr_songnum := 65535 }

/-- The state after loading a folder of 65535 tracks, priming and starting
playback, and then k - 1 completed track advances. -/
def stateAt (k : Nat) : App :=
  { audio_path := trk
    audio_sink := ⟨false, [trk], []⟩
    song_name := trk
    song_curr_time := fmtTime 0
    song_duration := "?[-_-#]"
    song_progress := "============/============"
    play_state := PlayState.Play false
    audio_file_list := ⟨[], pl65535⟩
    curr_folderpath := ""
    curr_playlist := pl65535
    curr_songid := k
    curr_songnum := 65535 }

def c10bad : App := step Ev.trackEnd (stateAt 65535)

/-- The conditions under which a tick takes the track-advance branch. -/
def tickAdvanceConds (a : App) : Prop :=
  a.audio_sink.is_paused = false ∧ a.audio_sink.empty = true ∧
    a.curr_songid ≠ 0 ∧ a.play_state = PlayState.Play false

/-- The playlist index the advance branch reads: (new cursor - 1) as usize,
with the u16 wrap of the subtraction. -/
def advIdx (a : App) : Nat :=
  prevIdx (advanceCursor a.curr_songnum a.curr_songid)

def w10 : App :=
  step Ev.trackEnd (step (Ev.key_p KeyKind.Press)
    (step (Ev.tickEv 0 none) (step (Ev.key_l [⟨"a.mp3", true⟩]) App.new)))

/- Helper lemmas and the claim theorems, witnesses and counterexamples. -/

lemma getD_replicate {α : Type} (n i : Nat) (a d : α) (h : i < n) :
    (List.replicate n a).getD i d = a := by
  rw [List.getD_eq_getElem _ _ (by simpa using h)]
  simp

lemma load_file_path_foldl (entries : List DirEntry) (fl : AudioFileList) :
    entries.foldl (fun l e => if entryIncluded e then l.insert_file e.name else l) fl =
      ⟨fl.dirs, fl.files ++ scanFiles entries⟩ := by
  induction entries generalizing fl with
  | nil => simp [scanFiles]
  | cons e es ih =>
    by_cases h : entryIncluded e = true
    · rw [List.foldl_cons, if_pos h]
      rw [show AudioFileList.insert_file fl e.name = ⟨fl.dirs, fl.files ++ [e.name]⟩ from rfl, ih]
      simp [scanFiles, h]
    · rw [List.foldl_cons, if_neg h, ih]
      simp [scanFiles, h]

lemma load_file_path_eq (a : App) (es : List DirEntry) :
    a.load_file_path es = {a with audio_file_list := ⟨a.audio_file_list.dirs, scanFiles es⟩} := by
  simp [App.load_file_path, AudioFileList.reset, load_file_path_foldl]

lemma scanFiles_replicate (n : Nat) (e : DirEntry) (h : entryIncluded e = true) :
    scanFiles (List.replicate n e) = List.replicate n e.name := by
  simp [scanFiles, List.filter_replicate, h, List.map_replicate]

/-- C1: an entry is included in the scan result of App::load_file_path not
when it is a regular file with a recognized suffix, but when it is a
regular file ending in mp3 or ANY entry ending in flac, ogg or wav: the
directory entry sub.flac (not a regular file) is included, so the claimed
conjunction of the two conditions does not describe the code.  The third
conjunct shows the regular-file test does fire for the mp3 suffix. -/
theorem c1_scan_admits_directory :
    entryIncluded ⟨"sub.flac", false⟩ = true ∧
    (App.new.load_file_path
        [⟨"a.mp3", true⟩, ⟨"sub.flac", false⟩, ⟨"b.txt", true⟩]).audio_file_list.files
      = ["a.mp3", "sub.flac"] ∧
    entryIncluded ⟨"x.mp3", false⟩ = false :=
  ⟨by decide, by decide, by decide⟩

/-- C2: with a track selected, a press-phase toggle-play input sends
Pause false and Play true to Play false while commanding the sink to play,
sends Play false and Pause true to Pause false while commanding the sink to
pause, and leaves Restart unchanged; a non-press input never changes the
app; and with no track selected any number of toggle-play inputs leaves
the whole app (output included) unchanged. -/
theorem c2_toggle_play :
    (∀ a : App, a.curr_songid ≠ 0 →
      ((a.play_state = PlayState.Pause false ∨ a.play_state = PlayState.Play true →
          togglePlay KeyKind.Press a =
            {a with audio_sink := a.audio_sink.play, play_state := PlayState.Play false}) ∧
        (a.play_state = PlayState.Play false ∨ a.play_state = PlayState.Pause true →
          togglePlay KeyKind.Press a =
            {a with audio_sink := a.audio_sink.pause, play_state := PlayState.Pause false}) ∧
        (a.play_state = PlayState.Restart → togglePlay KeyKind.Press a = a))) ∧
    (∀ (a : App) (k : KeyKind), k ≠ KeyKind.Press → togglePlay k a = a) ∧
    (∀ (a : App) (m : Nat), a.curr_songid = 0 → (togglePlay KeyKind.Press)^[m] a = a) := by
  refine ⟨fun a h => ⟨?_, ?_, ?_⟩, ?_, ?_⟩
  · rintro (hs | hs) <;> simp [togglePlay, h, hs]
  · rintro (hs | hs) <;> simp [togglePlay, h, hs]
  · intro hs
    simp [togglePlay, h, hs]
  · intro a k hk
    by_cases hc : a.curr_songid ≠ 0
    · cases hps : a.play_state with
      | Play b => cases b <;> cases k <;> simp_all [togglePlay]
      | Pause b => cases b <;> cases k <;> simp_all [togglePlay]
      | Restart => cases k <;> simp_all [togglePlay]
    · simp [togglePlay, hc]
  · intro a m h
    induction m with
    | zero => rfl
    | succ n ih =>
      rw [Function.iterate_succ_apply', ih]
      simp [togglePlay, h]

/-- C2 witness: the theorem applied to a concrete state in Pause true with
a selected track, to a release input, and to the initial state. -/
theorem c2_toggle_play_witness :
    togglePlay KeyKind.Press exApp2 =
      {exApp2 with audio_sink := exApp2.audio_sink.pause, play_state := PlayState.Pause false} ∧
    togglePlay KeyKind.Release exApp2 = exApp2 ∧
    (togglePlay KeyKind.Press)^[5] App.new = App.new :=
  ⟨(c2_toggle_play.1 exApp2 (by decide)).2.1 (Or.inr rfl),
    c2_toggle_play.2.1 exApp2 KeyKind.Release (by decide),
    c2_toggle_play.2.2 App.new 5 rfl⟩

/-- C6: when the decoder reports no total duration and the active path is
nonempty, show_song_duration represents the total by the sentinel 36000 and
renders the fixed placeholder glyphs instead of an H:MM:SS time, and for
every elapsed value show_song_progress at total 36000 stores the fixed
indeterminate bar unconditionally. -/
theorem c6_unknown_duration (a : App) (h : a.audio_path.isEmpty = false) :
    (a.show_song_duration none).2 = 36000 ∧
    (a.show_song_duration none).1.song_duration = "?[-_-#]" ∧
    (∀ (b : App) (c2 : Nat),
      (b.show_song_progress c2 36000).song_progress = "============/============") := by
  refine ⟨?_, ?_, fun b c2 => ?_⟩ <;>
    simp [App.show_song_duration, durVal, durString, h,
      App.show_song_progress, progressString]

/-- C6 witness: the theorem applied to a concrete state with a nonempty
active path and elapsed 5. -/
theorem c6_unknown_duration_witness :
    (exApp6.show_song_duration none).2 = 36000 ∧
    (exApp6.show_song_duration none).1.song_duration = "?[-_-#]" ∧
    (exApp6.show_song_progress 5 36000).song_progress = "============/============" :=
  ⟨(c6_unknown_duration exApp6 rfl).1, (c6_unknown_duration exApp6 rfl).2.1,
    (c6_unknown_duration exApp6 rfl).2.2 exApp6 5⟩

/-- C7: on a tick with the output not paused, the output reporting empty, a
track selected and the state Pause true, the current track is appended to
the output, the output is immediately paused, the state becomes Pause
false, and the cursor and active path are unchanged. -/
theorem c7_prime_paused_track (a : App) (curr : Nat) (d : Option Nat)
    (h1 : a.audio_sink.is_paused = false) (h2 : a.audio_sink.empty = true)
    (h3 : a.curr_songid ≠ 0) (h4 : a.play_state = PlayState.Pause true) :
    (tick curr d a).play_state = PlayState.Pause false ∧
    (tick curr d a).audio_sink.is_paused = true ∧
    (tick curr d a).audio_sink.queue = [a.audio_path] ∧
    (tick curr d a).curr_songid = a.curr_songid ∧
    (tick curr d a).audio_path = a.audio_path := by
  have h1p : a.audio_sink.paused = false := h1
  have h2e : a.audio_sink.queue.isEmpty = true := h2
  have hq : a.audio_sink.queue = [] := by
    simpa [List.isEmpty_iff] using h2e
  simp [tick, tickShows, tickEnd, App.show_song_curr_time, App.show_song_duration,
    App.show_song_progress, App.show_song_info, Sink.append, Sink.pause, Sink.empty,
    Sink.is_paused, h1p, h2e, h3, h4, hq]

/-- C7 witness: the theorem applied to the state right after loading a
one-track playlist. -/
theorem c7_prime_paused_track_witness :
    (tick 0 (some 100) exApp7).play_state = PlayState.Pause false ∧
    (tick 0 (some 100) exApp7).audio_sink.is_paused = true ∧
    (tick 0 (some 100) exApp7).audio_sink.queue = [exApp7.audio_path] ∧
    (tick 0 (some 100) exApp7).curr_songid = exApp7.curr_songid ∧
    (tick 0 (some 100) exApp7).audio_path = exApp7.audio_path :=
  c7_prime_paused_track exApp7 0 (some 100) rfl rfl (by decide) rfl

/-- Characterization of the load-playlist arm when the truncated count is
nonzero. -/
lemma loadPlaylist_pos (a : App) (es : List DirEntry)
    (h : (scanFiles es).length % u16Mod ≠ 0) :
    loadPlaylist es a =
      { a with
        audio_file_list := ⟨a.audio_file_list.dirs, scanFiles es⟩
        curr_songnum := (scanFiles es).length % u16Mod
        curr_songid := 1
        curr_playlist := scanFiles es
        audio_path := (scanFiles es).getD 0 "" } := by
  unfold loadPlaylist
  rw [load_file_path_eq]
  simp only [h, ne_eq, not_false_iff, ite_true]
  rfl

/-- Characterization of the load-playlist arm when the truncated count is
zero (in particular for an empty scan result). -/
lemma loadPlaylist_zero (a : App) (es : List DirEntry)
    (h : (scanFiles es).length % u16Mod = 0) :
    loadPlaylist es a =
      { a with
        audio_file_list := ⟨a.audio_file_list.dirs, scanFiles es⟩
        curr_songnum := 0
        curr_songid := 0
        song_name := noAudioMsg } := by
  unfold loadPlaylist
  rw [load_file_path_eq]
  simp only [h]
  rfl

/-- C4 (amended): a load-playlist input whose scan result has a length not
divisible by 65536 (in particular, any non-empty result of fewer than 65536
files) sets the cursor to 1, replaces the playlist by the scan result and
sets the active path to entry cursor - 1; a result whose length is
divisible by 65536 (in particular, the empty one) sets the cursor to 0 and
the no-audio message, because `files.len() as u16` truncates the count. -/
theorem c4_load_playlist (a : App) (es : List DirEntry) :
    ((scanFiles es).length % u16Mod ≠ 0 →
      (loadPlaylist es a).curr_songid = 1 ∧
      (loadPlaylist es a).curr_playlist = scanFiles es ∧
      (loadPlaylist es a).audio_path = (scanFiles es).getD 0 "") ∧
    ((scanFiles es).length % u16Mod = 0 →
      (loadPlaylist es a).curr_songid = 0 ∧
      (loadPlaylist es a).song_name = noAudioMsg) := by
  constructor
  · intro h
    rw [loadPlaylist_pos a es h]
    exact ⟨rfl, rfl, rfl⟩
  · intro h
    rw [loadPlaylist_zero a es h]
    exact ⟨rfl, rfl⟩

/-- C4 witness: the theorem applied to a one-entry scan and to the empty
scan, from the initial state. -/
theorem c4_load_playlist_witness :
    ((loadPlaylist [⟨"a.mp3", true⟩] App.new).curr_songid = 1 ∧
      (loadPlaylist [⟨"a.mp3", true⟩] App.new).curr_playlist = scanFiles [⟨"a.mp3", true⟩] ∧
      (loadPlaylist [⟨"a.mp3", true⟩] App.new).audio_path = (scanFiles [⟨"a.mp3", true⟩]).getD 0 "") ∧
    ((loadPlaylist [] App.new).curr_songid = 0 ∧
      (loadPlaylist [] App.new).song_name = noAudioMsg) :=
  ⟨(c4_load_playlist App.new [⟨"a.mp3", true⟩]).1 (by decide),
    (c4_load_playlist App.new []).2 (by decide)⟩

/-- C4 counterexample: a scan returning 65536 included entries is
non-empty, yet the load takes the empty branch (cursor 0 and the no-audio
message) because the u16 cast of the count is 0. -/
theorem c4_load_counterexample :
    scanFiles (List.replicate 65536 (DirEntry.mk "a.mp3" true)) ≠ [] ∧
    (loadPlaylist (List.replicate 65536 (DirEntry.mk "a.mp3" true)) App.new).curr_songid = 0 ∧
    (loadPlaylist (List.replicate 65536 (DirEntry.mk "a.mp3" true)) App.new).song_name
      = noAudioMsg := by
  have hs : scanFiles (List.replicate 65536 (DirEntry.mk "a.mp3" true))
      = List.replicate 65536 "a.mp3" :=
    scanFiles_replicate 65536 (DirEntry.mk "a.mp3" true) (by decide)
  have hlen : (scanFiles (List.replicate 65536 (DirEntry.mk "a.mp3" true))).length % u16Mod
      = 0 := by
    rw [hs, List.length_replicate]
    rfl
  refine ⟨?_, ?_, ?_⟩
  · intro hnil
    rw [hs] at hnil
    have hml := congrArg List.length hnil
    rw [List.length_replicate, List.length_nil] at hml
    exact absurd hml (by omega)
  · rw [loadPlaylist_zero App.new _ hlen]
  · rw [loadPlaylist_zero App.new _ hlen]

lemma length_mk (l : List Char) : (String.mk l).length = l.length := rfl

/-- Symbolic form of the rebuilt progress bar for a non-sentinel total and
a non-empty sink. -/
lemma progressString_eq (curr dur : Nat) (prev : String) (h : dur ≠ 36000) :
    progressString curr dur false prev =
      String.mk (List.replicate (curr * 25 % u64Mod / dur) '=' ++ '>' ::
        List.replicate ((25 + u64Mod - curr * 25 % u64Mod / dur) % u64Mod) '-') := by
  unfold progressString
  rw [if_neg h]
  rfl

/-- C5 (amended): with the total not the sentinel, the total positive and
the output non-empty, and provided elapsed * 25 stays below 2 ^ 64 and the
fill count elapsed * 25 / total is at most 25, the rendered bar is exactly
filled fill characters, one cursor character and 25 - filled empty
characters, with filled computed by flooring integer division.  (Without
the two u64 provisos the formula does not describe the code: see the
counterexample.) -/
theorem c5_progress_bar (a : App) (curr dur : Nat)
    (h1 : dur ≠ 36000) (_h2 : 0 < dur) (h3 : a.audio_sink.empty = false)
    (h4 : curr * 25 < u64Mod) (h5 : curr * 25 / dur ≤ 25) :
    (a.show_song_progress curr dur).song_progress =
      String.mk (List.replicate (curr * 25 / dur) '=' ++ '>' ::
        List.replicate (25 - curr * 25 / dur) '-') := by
  have hm : curr * 25 % u64Mod = curr * 25 := Nat.mod_eq_of_lt h4
  have hw : (25 + u64Mod - curr * 25 / dur) % u64Mod = 25 - curr * 25 / dur := by
    revert h5
    generalize curr * 25 / dur = q
    intro h5
    unfold u64Mod
    omega
  have e0 : (a.show_song_progress curr dur).song_progress
      = progressString curr dur a.audio_sink.empty a.song_progress := rfl
  rw [e0, h3, progressString_eq curr dur a.song_progress h1, hm, hw]

/-- C5 witness: the theorem applied at elapsed 50, total 100, where the
fill count is 12. -/
theorem c5_progress_bar_witness :
    (exApp5.show_song_progress 50 100).song_progress =
      String.mk (List.replicate (50 * 25 / 100) '=' ++ '>' ::
        List.replicate (25 - 50 * 25 / 100) '-') :=
  c5_progress_bar exApp5 50 100 (by decide) (by decide) rfl (by decide) (by decide)

/-- C5 counterexample: at elapsed 2, total 1 the fill count is 50, past the
bar width, and the dash count the code produces is the wrapped u64 value of
25 - 50 (2 ^ 64 - 25 dashes), not the claimed 25 - filled; at elapsed
2 ^ 63, total 1 the u64 product elapsed * 25 itself wraps.  In both cases
the rendered string differs from the claimed one already in length (debug
builds abort at these inputs instead). -/
theorem c5_progress_counterexample :
    (exApp5.show_song_progress 2 1).song_progress ≠
      String.mk (List.replicate (2 * 25 / 1) '=' ++ '>' ::
        List.replicate (25 - 2 * 25 / 1) '-') ∧
    (exApp5.show_song_progress 9223372036854775808 1).song_progress ≠
      String.mk (List.replicate (9223372036854775808 * 25 / 1) '=' ++ '>' ::
        List.replicate (25 - 9223372036854775808 * 25 / 1) '-') := by
  have hempty : exApp5.audio_sink.empty = false := rfl
  constructor
  · intro h
    rw [show (exApp5.show_song_progress 2 1).song_progress
          = progressString 2 1 exApp5.audio_sink.empty exApp5.song_progress from rfl,
      hempty, progressString_eq 2 1 exApp5.song_progress (by omega)] at h
    have hl := congrArg String.length h
    rw [length_mk, length_mk, List.length_append, List.length_append,
      List.length_cons, List.length_cons, List.length_replicate, List.length_replicate,
      List.length_replicate, List.length_replicate] at hl
    unfold u64Mod at hl
    omega
  · intro h
    rw [show (exApp5.show_song_progress 9223372036854775808 1).song_progress
          = progressString 9223372036854775808 1 exApp5.audio_sink.empty
              exApp5.song_progress from rfl,
      hempty, progressString_eq 9223372036854775808 1 exApp5.song_progress (by omega)] at h
    have hl := congrArg String.length h
    rw [length_mk, length_mk, List.length_append, List.length_append,
      List.length_cons, List.length_cons, List.length_replicate, List.length_replicate,
      List.length_replicate, List.length_replicate] at hl
    unfold u64Mod at hl
    omega

/-- (x + 1) % n, written by cases on whether x % n is the last residue. -/
lemma mod_succ_ite (x n : Nat) (hn : 0 < n) :
    (x + 1) % n = if x % n + 1 = n then 0 else x % n + 1 := by
  have h1 : (x + 1) % n = (x % n + 1) % n := by
    conv_lhs => rw [← Nat.mod_add_div x n, Nat.add_right_comm,
      Nat.add_mul_mod_self_left]
  rw [h1]
  by_cases h : x % n + 1 = n
  · rw [if_pos h, h, Nat.mod_self]
  · have hlt : x % n + 1 < n := by
      have := Nat.mod_lt x hn
      omega
    rw [if_neg h, Nat.mod_eq_of_lt hlt]

/-- Advancing the cursor from the last track resets it to 1 (for track
counts below the u16 maximum). -/
lemma advanceCursor_self (n : Nat) (h1 : 1 ≤ n) (h2 : n ≤ 65534) :
    advanceCursor n n = 1 := by
  simp only [advanceCursor]
  have h : (n + 1) % u16Mod = n + 1 := by
    unfold u16Mod
    omega
  rw [h, if_pos (by omega)]

/-- Closed form of the iterated cursor advance on a playlist of n tracks,
n below the u16 maximum. -/
lemma advanceCursor_formula (n c : Nat) (h1 : 1 ≤ c) (h2 : c ≤ n) (h3 : n ≤ 65534) :
    ∀ k : Nat, (advanceCursor n)^[k] c = (c - 1 + k) % n + 1 := by
  intro k
  induction k with
  | zero =>
    rw [Function.iterate_zero_apply,
      Nat.mod_eq_of_lt (by omega : c - 1 + 0 < n)]
    omega
  | succ k ih =>
    rw [Function.iterate_succ_apply', ih]
    have hn : 0 < n := by omega
    have hm : (c - 1 + k) % n < n := Nat.mod_lt _ hn
    have hrhs : (c - 1 + (k + 1)) % n =
        if (c - 1 + k) % n + 1 = n then 0 else (c - 1 + k) % n + 1 := by
      rw [show c - 1 + (k + 1) = c - 1 + k + 1 from rfl, mod_succ_ite _ _ hn]
    set m := (c - 1 + k) % n with hmdef
    rw [hrhs]
    simp only [advanceCursor]
    have hu : (m + 1 + 1) % u16Mod = m + 1 + 1 := by
      unfold u16Mod
      omega
    rw [hu]
    by_cases hcase : m + 1 = n
    · rw [if_pos hcase, if_pos (by omega)]
    · rw [if_neg hcase, if_neg (by omega)]

/-- C3 (amended): for every track count n with 1 <= n <= 65534 and cursor c
with 1 <= c <= n, advancing n times returns the cursor to c; advancing from
the last track resets the cursor to 1; and on an end-of-track tick in state
Play false at the last track the cursor becomes 1 and playlist entry 0 is
loaded into the output.  The bound 65534 excludes the u16 maximum, where
the increment wraps to 0 instead (see the counterexample). -/
theorem c3_cursor_orbit (n c : Nat) (h1 : 1 ≤ c) (h2 : c ≤ n) (h3 : n ≤ 65534) :
    ((advanceCursor n)^[n] c = c ∧ advanceCursor n n = 1) ∧
    (∀ (a : App) (curr : Nat) (d : Option Nat),
      a.audio_sink.is_paused = false → a.audio_sink.empty = true →
      a.play_state = PlayState.Play false → a.curr_songid = n → a.curr_songnum = n →
      (tick curr d a).curr_songid = 1 ∧
      (tick curr d a).audio_sink.queue = [a.curr_playlist.getD 0 ""]) := by
  constructor
  · constructor
    · rw [advanceCursor_formula n c h1 h2 h3 n, Nat.add_mod_right,
        Nat.mod_eq_of_lt (by omega : c - 1 < n)]
      omega
    · exact advanceCursor_self n (by omega) h3
  · intro a curr d hp he hs hid hnum
    have h1p : a.audio_sink.paused = false := hp
    have h2e : a.audio_sink.queue.isEmpty = true := he
    have hq : a.audio_sink.queue = [] := by
      simpa [List.isEmpty_iff] using h2e
    have hne : a.curr_songid ≠ 0 := by omega
    have hadv : advanceCursor a.curr_songnum a.curr_songid = 1 := by
      rw [hid, hnum]
      exact advanceCursor_self n (by omega) h3
    have hpi : prevIdx 1 = 0 := rfl
    simp [tick, tickShows, tickEnd, App.show_song_curr_time, App.show_song_duration,
      App.show_song_progress, App.show_song_info, Sink.append, Sink.empty, Sink.is_paused,
      h1p, h2e, hq, hs, hne, hadv, hpi]

/-- C3 witness: two tracks, cursor at the last track; two advances return
to 1, a single advance from the last track gives 1, and the end-of-track
tick loads playlist entry 0. -/
theorem c3_cursor_orbit_witness :
    ((advanceCursor 2)^[2] 1 = 1 ∧ advanceCursor 2 2 = 1) ∧
    ((tick 0 none exApp3).curr_songid = 1 ∧
      (tick 0 none exApp3).audio_sink.queue = [exApp3.curr_playlist.getD 0 ""]) :=
  ⟨(c3_cursor_orbit 2 1 (by decide) (by decide) (by decide)).1,
    (c3_cursor_orbit 2 1 (by decide) (by decide) (by decide)).2 exApp3 0 none
      rfl rfl rfl rfl rfl⟩

/-- C3 counterexample: at the u16 maximum track count 65535, advancing from
the last track does not wrap the cursor to 1: `curr_songid += 1` wraps the
u16 to 0, the reset test 0 > 65535 fails, and the cursor becomes 0 (debug
builds abort on the increment instead). -/
theorem c3_wrap_counterexample :
    advanceCursor 65535 65535 = 0 ∧ advanceCursor 65535 65535 ≠ 1 := by
  constructor <;> decide

/-- The display phase only rewrites the three string fields. -/
lemma tickShows_eq (curr : Nat) (d : Option Nat) (a : App) :
    tickShows curr d a =
      { a with
        song_curr_time := fmtTime curr
        song_duration := durString a.audio_path d
        song_progress := progressString curr (durVal a.audio_path d)
          a.audio_sink.empty a.song_progress } := rfl

/-- The end-of-stream phase with no track selected does nothing. -/
lemma tickEnd_cursor0 (a : App) (h : a.curr_songid = 0) : tickEnd a = a := by
  unfold tickEnd
  rw [if_neg (fun hcon => hcon.2 h)]

/-- What the end-of-stream phase can do to the non-display fields. -/
lemma tickEnd_cases (a : App) :
    (tickEnd a).curr_songnum = a.curr_songnum ∧
    (tickEnd a).curr_playlist = a.curr_playlist ∧
    (tickEnd a).audio_sink.seeks = a.audio_sink.seeks ∧
    ((tickEnd a).play_state = a.play_state ∨
      (a.play_state = PlayState.Pause true ∧ (tickEnd a).play_state = PlayState.Pause false)) ∧
    ((tickEnd a).curr_songid = a.curr_songid ∨
      (a.curr_songid ≠ 0 ∧ a.play_state = PlayState.Play false ∧
        (tickEnd a).curr_songid = advanceCursor a.curr_songnum a.curr_songid)) := by
  unfold tickEnd
  by_cases hc : a.audio_sink.empty = true ∧ a.curr_songid ≠ 0
  · cases hps : a.play_state with
    | Play b =>
      cases b
      · rw [if_pos hc]
        exact ⟨rfl, rfl, rfl, Or.inl rfl, Or.inr ⟨hc.2, rfl, rfl⟩⟩
      · rw [if_pos hc]
        exact ⟨rfl, rfl, rfl, Or.inl hps, Or.inl rfl⟩
    | Pause b =>
      cases b
      · rw [if_pos hc]
        exact ⟨rfl, rfl, rfl, Or.inl hps, Or.inl rfl⟩
      · rw [if_pos hc]
        exact ⟨rfl, rfl, rfl, Or.inr ⟨rfl, rfl⟩, Or.inl rfl⟩
    | Restart =>
      rw [if_pos hc]
      exact ⟨rfl, rfl, rfl, Or.inl hps, Or.inl rfl⟩
  · rw [if_neg hc]
    exact ⟨rfl, rfl, rfl, Or.inl rfl, Or.inl rfl⟩

/-- What a tick can do to the non-display fields. -/
lemma tick_cases (curr : Nat) (d : Option Nat) (a : App) :
    (tick curr d a).curr_songnum = a.curr_songnum ∧
    (tick curr d a).curr_playlist = a.curr_playlist ∧
    (tick curr d a).audio_sink.seeks = a.audio_sink.seeks ∧
    ((tick curr d a).play_state = a.play_state ∨
      (a.play_state = PlayState.Pause true ∧ (tick curr d a).play_state = PlayState.Pause false)) ∧
    ((tick curr d a).curr_songid = a.curr_songid ∨
      (a.curr_songid ≠ 0 ∧ a.play_state = PlayState.Play false ∧
        (tick curr d a).curr_songid = advanceCursor a.curr_songnum a.curr_songid)) := by
  unfold tick
  by_cases hp : a.audio_sink.is_paused = false
  · rw [if_pos hp, tickShows_eq]
    exact tickEnd_cases _
  · rw [if_neg hp]
    exact ⟨rfl, rfl, rfl, Or.inl rfl, Or.inl rfl⟩

/-- A tick with no track selected leaves the sink queue unchanged. -/
lemma tick_queue_cursor0 (curr : Nat) (d : Option Nat) (a : App) (h : a.curr_songid = 0) :
    (tick curr d a).audio_sink.queue = a.audio_sink.queue := by
  unfold tick
  by_cases hp : a.audio_sink.is_paused = false
  · rw [if_pos hp, tickEnd_cursor0 (tickShows curr d a) h]
    rfl
  · rw [if_neg hp]

/-- What a toggle-play input can do to the app. -/
lemma togglePlay_cases (k : KeyKind) (a : App) :
    (togglePlay k a).curr_songid = a.curr_songid ∧
    (togglePlay k a).curr_songnum = a.curr_songnum ∧
    (togglePlay k a).curr_playlist = a.curr_playlist ∧
    (togglePlay k a).audio_path = a.audio_path ∧
    (togglePlay k a).audio_sink.queue = a.audio_sink.queue ∧
    (togglePlay k a).audio_sink.seeks = a.audio_sink.seeks ∧
    ((togglePlay k a).play_state = a.play_state ∨
      (togglePlay k a).play_state = PlayState.Play false ∨
      (togglePlay k a).play_state = PlayState.Pause false) := by
  by_cases hc : a.curr_songid ≠ 0
  · cases hps : a.play_state with
    | Play b =>
      cases b <;> cases k <;>
        simp_all [togglePlay, Sink.play, Sink.pause]
    | Pause b =>
      cases b <;> cases k <;>
        simp_all [togglePlay, Sink.play, Sink.pause]
    | Restart =>
      cases k <;> simp_all [togglePlay]
  · simp [togglePlay, hc]

/-- What the load-playlist input can do to the app. -/
lemma loadPlaylist_cases (es : List DirEntry) (a : App) :
    (loadPlaylist es a).audio_sink = a.audio_sink ∧
    (loadPlaylist es a).play_state = a.play_state ∧
    (((scanFiles es).length % u16Mod ≠ 0 ∧
        (loadPlaylist es a).curr_songid = 1 ∧
        (loadPlaylist es a).curr_songnum = (scanFiles es).length % u16Mod ∧
        (loadPlaylist es a).curr_playlist = scanFiles es) ∨
      ((loadPlaylist es a).curr_songid = 0 ∧
        (loadPlaylist es a).curr_songnum = 0 ∧
        (loadPlaylist es a).curr_playlist = a.curr_playlist)) := by
  by_cases h : (scanFiles es).length % u16Mod = 0
  · rw [loadPlaylist_zero a es h]
    exact ⟨rfl, rfl, Or.inr ⟨rfl, rfl, rfl⟩⟩
  · rw [loadPlaylist_pos a es h]
    exact ⟨rfl, rfl, Or.inl ⟨h, rfl, rfl, rfl⟩⟩

/-- The advanced cursor stays within the track count. -/
lemma advanceCursor_le (n c : Nat) (h1 : 1 ≤ c) (h2 : c ≤ n) :
    advanceCursor n c ≤ n := by
  unfold advanceCursor
  show (if (c + 1) % u16Mod > n then 1 else (c + 1) % u16Mod) ≤ n
  by_cases hgt : (c + 1) % u16Mod > n
  · rw [if_pos hgt]
    omega
  · rw [if_neg hgt]
    omega

/-- No reachable state is Restarting and no seek command is ever issued. -/
lemma reach_no_restart :
    ∀ a : App, Reach a → a.play_state ≠ PlayState.Restart ∧ a.audio_sink.seeks = [] := by
  intro a h
  induction h with
  | init => exact ⟨by decide, rfl⟩
  | next e b _ ih =>
    cases e with
    | key_l es =>
      obtain ⟨hsink, hstate, _⟩ := loadPlaylist_cases es b
      refine ⟨?_, ?_⟩
      · show (loadPlaylist es b).play_state ≠ _
        rw [hstate]
        exact ih.1
      · show (loadPlaylist es b).audio_sink.seeks = []
        rw [hsink]
        exact ih.2
    | key_p k =>
      obtain ⟨_, _, _, _, _, hseeks, hstate⟩ := togglePlay_cases k b
      refine ⟨?_, ?_⟩
      · show (togglePlay k b).play_state ≠ _
        rcases hstate with h1 | h1 | h1 <;> rw [h1]
        · exact ih.1
        · exact fun hx => PlayState.noConfusion hx
        · exact fun hx => PlayState.noConfusion hx
      · show (togglePlay k b).audio_sink.seeks = []
        rw [hseeks]
        exact ih.2
    | tickEv curr dopt =>
      obtain ⟨_, _, hseeks, hstate, _⟩ := tick_cases curr dopt b
      refine ⟨?_, ?_⟩
      · show (tick curr dopt b).play_state ≠ _
        rcases hstate with h1 | ⟨_, h1⟩ <;> rw [h1]
        · exact ih.1
        · exact fun hx => PlayState.noConfusion hx
      · show (tick curr dopt b).audio_sink.seeks = []
        rw [hseeks]
        exact ih.2
    | trackEnd => exact ih

/-- C8 (amended): the Restart variant is declared but inert and
unreachable: no reachable state is Restarting and no seek command is ever
issued; and were the state Restarting, a toggle-play input would leave the
app unchanged and a tick would leave the state Restarting without seeking.
The claimed seek-to-zero-then-Paused transition does not exist in run_app
(no match arm handles Restart and nothing constructs it). -/
theorem c8_restart_inert :
    (∀ a : App, Reach a → a.play_state ≠ PlayState.Restart ∧ a.audio_sink.seeks = []) ∧
    (∀ (a : App) (k : KeyKind), a.play_state = PlayState.Restart → togglePlay k a = a) ∧
    (∀ (a : App) (curr : Nat) (d : Option Nat), a.play_state = PlayState.Restart →
      (tick curr d a).play_state = PlayState.Restart ∧
      (tick curr d a).audio_sink.seeks = a.audio_sink.seeks) := by
  refine ⟨reach_no_restart, ?_, ?_⟩
  · intro a k hs
    by_cases hc : a.curr_songid ≠ 0
    · cases k <;> simp [togglePlay, hc, hs]
    · simp [togglePlay, hc]
  · intro a curr d hs
    obtain ⟨_, _, hseeks, hstate, _⟩ := tick_cases curr d a
    refine ⟨?_, hseeks⟩
    rcases hstate with h1 | ⟨h1, _⟩
    · rw [h1, hs]
    · rw [hs] at h1
      exact absurd h1 (by decide)

/-- C8 witness: the theorem applied to the initial state and to a concrete
state whose play state is Restart. -/
theorem c8_restart_inert_witness :
    (App.new.play_state ≠ PlayState.Restart ∧ App.new.audio_sink.seeks = []) ∧
    togglePlay KeyKind.Press c8app = c8app ∧
    ((tick 0 none c8app).play_state = PlayState.Restart ∧
      (tick 0 none c8app).audio_sink.seeks = c8app.audio_sink.seeks) :=
  ⟨c8_restart_inert.1 App.new Reach.init,
    c8_restart_inert.2.1 c8app KeyKind.Press rfl,
    c8_restart_inert.2.2 c8app 0 none rfl⟩

/-- C8 counterexample: in a state with play state Restart (cursor 1, one
track), a tick leaves the state Restart, issues no seek, and a toggle-play
press changes nothing, where the claim demands a seek to position zero and
a transition to Paused. -/
theorem c8_restart_counterexample :
    (tick 0 none c8app).play_state = PlayState.Restart ∧
    (tick 0 none c8app).audio_sink.seeks = [] ∧
    togglePlay KeyKind.Press c8app = c8app :=
  ⟨by decide, by decide, by decide⟩

/-- C9 (amended): 0 <= cursor <= track count holds initially and is
preserved by every operation, and no operation adds audio to the output
while the cursor is 0 (the queue can only stay or shrink).  The stronger
claimed form — cursor 0 implies no audio loaded — fails: an empty rescan
zeroes the cursor without clearing the output (see the counterexample). -/
theorem c9_cursor_invariant :
    App.new.curr_songid ≤ App.new.curr_songnum ∧
    (∀ (e : Ev) (a : App), a.curr_songid ≤ a.curr_songnum →
      (step e a).curr_songid ≤ (step e a).curr_songnum) ∧
    (∀ (e : Ev) (a : App), a.curr_songid = 0 →
      List.Sublist ((step e a).audio_sink.queue) a.audio_sink.queue) := by
  refine ⟨Nat.le_refl 0, ?_, ?_⟩
  · intro e a hinv
    cases e with
    | key_l es =>
      obtain ⟨_, _, hd⟩ := loadPlaylist_cases es a
      show (loadPlaylist es a).curr_songid ≤ (loadPlaylist es a).curr_songnum
      rcases hd with ⟨hne, h1, h2, _⟩ | ⟨h1, h2, _⟩
      · rw [h1, h2]
        omega
      · rw [h1, h2]
    | key_p k =>
      obtain ⟨h1, h2, _⟩ := togglePlay_cases k a
      show (togglePlay k a).curr_songid ≤ (togglePlay k a).curr_songnum
      rw [h1, h2]
      exact hinv
    | tickEv curr dopt =>
      obtain ⟨hn, _, _, _, hid⟩ := tick_cases curr dopt a
      show (tick curr dopt a).curr_songid ≤ (tick curr dopt a).curr_songnum
      rcases hid with h1 | ⟨hne, _, h1⟩
      · rw [h1, hn]
        exact hinv
      · rw [h1, hn]
        exact advanceCursor_le _ _ (by omega) hinv
    | trackEnd => exact hinv
  · intro e a h0
    cases e with
    | key_l es =>
      show List.Sublist ((loadPlaylist es a).audio_sink.queue) a.audio_sink.queue
      rw [congrArg Sink.queue (loadPlaylist_cases es a).1]
    | key_p k =>
      show List.Sublist ((togglePlay k a).audio_sink.queue) a.audio_sink.queue
      rw [(togglePlay_cases k a).2.2.2.2.1]
    | tickEv curr dopt =>
      show List.Sublist ((tick curr dopt a).audio_sink.queue) a.audio_sink.queue
      rw [tick_queue_cursor0 curr dopt a h0]
    | trackEnd =>
      show List.Sublist (a.audio_sink.queue.drop 1) a.audio_sink.queue
      exact List.drop_sublist 1 a.audio_sink.queue

/-- C9 witness: the theorem applied to the initial state, a tick event and
a track-end event. -/
theorem c9_cursor_invariant_witness :
    App.new.curr_songid ≤ App.new.curr_songnum ∧
    (step (Ev.tickEv 0 none) App.new).curr_songid ≤
      (step (Ev.tickEv 0 none) App.new).curr_songnum ∧
    List.Sublist ((step Ev.trackEnd App.new).audio_sink.queue)
      App.new.audio_sink.queue :=
  ⟨c9_cursor_invariant.1,
    c9_cursor_invariant.2.1 (Ev.tickEv 0 none) App.new (Nat.le_refl 0),
    c9_cursor_invariant.2.2 Ev.trackEnd App.new rfl⟩

/-- C9 counterexample: load a one-track playlist, let a tick prime the
track into the (paused) output, then reload while the directory scan comes
back empty: the cursor is 0 yet the output still holds the primed track, so
cursor 0 does not imply that no audio is loaded. -/
theorem c9_invariant_counterexample :
    Reach c9bad ∧ c9bad.curr_songid = 0 ∧ c9bad.audio_sink.queue = ["a.mp3"] :=
  ⟨Reach.next _ _ (Reach.next _ _ (Reach.next _ _ Reach.init)), by decide, by decide⟩

/-- The advance arm of the end-of-stream phase, as one record update. -/
lemma tickEnd_advance (a : App) (hc : a.audio_sink.empty = true ∧ a.curr_songid ≠ 0)
    (hps : a.play_state = PlayState.Play false) :
    tickEnd a =
      { a with
        curr_songid := advanceCursor a.curr_songnum a.curr_songid
        audio_path := a.curr_playlist.getD
          (prevIdx (advanceCursor a.curr_songnum a.curr_songid)) ""
        audio_sink := a.audio_sink.append (a.curr_playlist.getD
          (prevIdx (advanceCursor a.curr_songnum a.curr_songid)) "")
        song_name := a.curr_playlist.getD
          (prevIdx (advanceCursor a.curr_songnum a.curr_songid)) "" } := by
  unfold tickEnd
  rw [if_pos hc, hps]
  rfl

/-- Cursor at most count and count at most playlist length, in every
reachable state. -/
lemma reach_inv : ∀ a : App, Reach a →
    a.curr_songid ≤ a.curr_songnum ∧ a.curr_songnum ≤ a.curr_playlist.length := by
  intro a h
  induction h with
  | init => exact ⟨Nat.le_refl 0, by decide⟩
  | next e b _ ih =>
    cases e with
    | key_l es =>
      obtain ⟨_, _, hd⟩ := loadPlaylist_cases es b
      rcases hd with ⟨hne, h1, h2, h3⟩ | ⟨h1, h2, h3⟩
      · constructor
        · show (loadPlaylist es b).curr_songid ≤ (loadPlaylist es b).curr_songnum
          rw [h1, h2]
          omega
        · show (loadPlaylist es b).curr_songnum ≤ (loadPlaylist es b).curr_playlist.length
          rw [h2, h3]
          exact Nat.mod_le _ _
      · constructor
        · show (loadPlaylist es b).curr_songid ≤ (loadPlaylist es b).curr_songnum
          rw [h1, h2]
        · show (loadPlaylist es b).curr_songnum ≤ (loadPlaylist es b).curr_playlist.length
          rw [h2]
          exact Nat.zero_le _
    | key_p k =>
      obtain ⟨h1, h2, h3, _⟩ := togglePlay_cases k b
      constructor
      · show (togglePlay k b).curr_songid ≤ (togglePlay k b).curr_songnum
        rw [h1, h2]
        exact ih.1
      · show (togglePlay k b).curr_songnum ≤ (togglePlay k b).curr_playlist.length
        rw [h2, h3]
        exact ih.2
    | tickEv curr dopt =>
      obtain ⟨hn, hpl, _, _, hid⟩ := tick_cases curr dopt b
      constructor
      · show (tick curr dopt b).curr_songid ≤ (tick curr dopt b).curr_songnum
        rcases hid with h1 | ⟨hne, _, h1⟩
        · rw [h1, hn]
          exact ih.1
        · rw [h1, hn]
          exact advanceCursor_le _ _ (by omega) ih.1
      · show (tick curr dopt b).curr_songnum ≤ (tick curr dopt b).curr_playlist.length
        rw [hn, hpl]
        exact ih.2
    | trackEnd => exact ih

lemma scan_entsRep : scanFiles entsRep = pl65535 := by
  rw [show entsRep = List.replicate 65535 (DirEntry.mk trk true) from rfl,
    scanFiles_replicate 65535 (DirEntry.mk trk true) (by decide)]
  rfl

lemma len_entsRep : (scanFiles entsRep).length % u16Mod ≠ 0 := by
  rw [scan_entsRep, show pl65535 = List.replicate 65535 trk from rfl,
    List.length_replicate]
  decide

lemma reach_loadedSt : Reach loadedSt := by
  have h1 : step (Ev.key_l entsRep) App.new = loadedSt := by
    show loadPlaylist entsRep App.new = loadedSt
    rw [loadPlaylist_pos App.new entsRep len_entsRep, scan_entsRep]
    rw [show pl65535.length % u16Mod = 65535 from by
      rw [show pl65535 = List.replicate 65535 trk from rfl, List.length_replicate]
      decide]
    exact rfl
  have r := Reach.next (Ev.key_l entsRep) App.new Reach.init
  rw [h1] at r
  exact r

lemma reach_stateAt_one : Reach (stateAt 1) := by
  have h2 : step (Ev.tickEv 0 none) loadedSt = primedSt := rfl
  have h3 : step (Ev.key_p KeyKind.Press) primedSt = stateAt 1 := rfl
  have r2 := Reach.next (Ev.tickEv 0 none) loadedSt reach_loadedSt
  rw [h2] at r2
  have r3 := Reach.next (Ev.key_p KeyKind.Press) primedSt r2
  rw [h3] at r3
  exact r3

lemma c10_cycle (k : Nat) (h1 : 1 ≤ k) (h2 : k ≤ 65534) :
    step (Ev.tickEv 0 none) (step Ev.trackEnd (stateAt k)) = stateAt (k + 1) := by
  have hadv : advanceCursor 65535 k = k + 1 := by
    unfold advanceCursor
    show (if (k + 1) % u16Mod > 65535 then 1 else (k + 1) % u16Mod) = k + 1
    have hm : (k + 1) % u16Mod = k + 1 := by
      unfold u16Mod
      omega
    rw [hm, if_neg (by omega)]
  have hidx : prevIdx (k + 1) = k := by
    unfold prevIdx u16Mod
    omega
  have hget : pl65535.getD k "" = trk := by
    rw [show pl65535 = List.replicate 65535 trk from rfl]
    exact getD_replicate 65535 k trk "" (by omega)
  show tickEnd (tickShows 0 none { stateAt k with audio_sink := Sink.new })
      = stateAt (k + 1)
  have hc : (tickShows 0 none { stateAt k with audio_sink := Sink.new }).audio_sink.empty
        = true ∧
      (tickShows 0 none { stateAt k with audio_sink := Sink.new }).curr_songid ≠ 0 :=
    ⟨rfl, show k ≠ 0 by omega⟩
  have hps : (tickShows 0 none { stateAt k with audio_sink := Sink.new }).play_state
      = PlayState.Play false := rfl
  rw [tickEnd_advance _ hc hps, tickShows_eq]
  unfold stateAt
  dsimp only
  rw [hadv, hidx, hget]
  exact rfl

lemma reach_stateAt : ∀ j : Nat, j ≤ 65534 → Reach (stateAt (1 + j)) := by
  intro j
  induction j with
  | zero => exact fun _ => reach_stateAt_one
  | succ m ih =>
    intro hm
    have hc := c10_cycle (1 + m) (by omega) (by omega)
    have r := Reach.next (Ev.tickEv 0 none) _ (Reach.next Ev.trackEnd _ (ih (by omega)))
    rw [hc] at r
    show Reach (stateAt (1 + (m + 1)))
    rw [show 1 + (m + 1) = 1 + m + 1 from by omega]
    exact r

/-- The advanced cursor lies in [1, n] for counts below the u16 maximum. -/
lemma advanceCursor_bounds (n c : Nat) (h1 : 1 ≤ c) (h2 : c ≤ n) (h3 : n ≤ 65534) :
    1 ≤ advanceCursor n c ∧ advanceCursor n c ≤ n := by
  unfold advanceCursor
  have hm : (c + 1) % u16Mod = c + 1 := by
    unfold u16Mod
    omega
  show 1 ≤ (if (c + 1) % u16Mod > n then 1 else (c + 1) % u16Mod) ∧
    (if (c + 1) % u16Mod > n then 1 else (c + 1) % u16Mod) ≤ n
  rw [hm]
  by_cases hgt : c + 1 > n
  · rw [if_pos hgt]
    omega
  · rw [if_neg hgt]
    omega

/-- C10 (amended): in every reachable state a selected cursor is within the
playlist, the indexing performed by a load of a non-empty (non-truncating)
scan is in bounds, and the indexing performed by the track-advance branch
is in bounds whenever the track count is at most 65534.  At the u16
maximum count 65535 the advance underflows out of bounds (see the
counterexample). -/
theorem c10_index_safety :
    (∀ a : App, Reach a → 1 ≤ a.curr_songid → a.curr_songid ≤ a.curr_playlist.length) ∧
    (∀ es : List DirEntry, (scanFiles es).length % u16Mod ≠ 0 →
      prevIdx 1 < (scanFiles es).length) ∧
    (∀ a : App, Reach a → a.curr_songnum ≤ 65534 → tickAdvanceConds a →
      1 ≤ advanceCursor a.curr_songnum a.curr_songid ∧
      advIdx a < a.curr_playlist.length) := by
  refine ⟨?_, ?_, ?_⟩
  · intro a hr _
    have hi := reach_inv a hr
    omega
  · intro es h
    rw [show prevIdx 1 = 0 from rfl]
    revert h
    unfold u16Mod
    omega
  · intro a hr hn hconds
    have hi := reach_inv a hr
    obtain ⟨-, -, hne, -⟩ := hconds
    have hb := advanceCursor_bounds a.curr_songnum a.curr_songid (by omega) hi.1 hn
    refine ⟨hb.1, ?_⟩
    unfold advIdx prevIdx u16Mod
    omega

/-- C10 witness: the theorem applied to the reachable state obtained by
loading one track, priming it, starting playback and letting it finish. -/
theorem c10_index_safety_witness :
    w10.curr_songid ≤ w10.curr_playlist.length ∧
    prevIdx 1 < (scanFiles [DirEntry.mk "a.mp3" true]).length ∧
    (1 ≤ advanceCursor w10.curr_songnum w10.curr_songid ∧
      advIdx w10 < w10.curr_playlist.length) := by
  have hr : Reach w10 :=
    Reach.next _ _ (Reach.next _ _ (Reach.next _ _ (Reach.next _ _ Reach.init)))
  exact ⟨c10_index_safety.1 w10 hr (by decide),
    c10_index_safety.2.1 [DirEntry.mk "a.mp3" true] (by decide),
    c10_index_safety.2.2 w10 hr (by decide) ⟨rfl, rfl, by decide, rfl⟩⟩

/-- C10 counterexample: after loading 65535 tracks and letting playback
advance to the last one (a reachable state), the next advance wraps the u16
cursor to 0 and the index (0 - 1) as usize underflows to 65535, which is
out of bounds for the 65535-entry playlist: the claimed in-bounds property
fails on this reachable state. -/
theorem c10_index_counterexample :
    Reach c10bad ∧ tickAdvanceConds c10bad ∧
    ¬ advIdx c10bad < c10bad.curr_playlist.length := by
  refine ⟨?_, ?_, ?_⟩
  · refine Reach.next Ev.trackEnd _ ?_
    have h := reach_stateAt 65534 (by omega)
    rwa [show (1 + 65534 : Nat) = 65535 from by omega] at h
  · exact ⟨rfl, rfl, by decide, rfl⟩
  · have hlen : c10bad.curr_playlist.length = 65535 := by
      show pl65535.length = 65535
      rw [show pl65535 = List.replicate 65535 trk from rfl, List.length_replicate]
    have hadv : advIdx c10bad = 65535 := by
      show prevIdx (advanceCursor 65535 65535) = 65535
      decide
    rw [hadv, hlen]
    omega
